import Mathlib

/-!
Shallow embedding of the persistence and data-integrity layer of
Snippet Manager Pro (src/snippet_manager/database.py, utils.py, config.py).

JSON values are modelled by the inductive type `Json`; Python dicts are
ordered association lists with unique keys (dict assignment updates an
existing key in place and appends a new key at the end).  The backing
file is modelled by the state type `FileState`; `json.load` / `json.dump`
are modelled as reading / writing the parsed JSON value, since their
round trip on JSON-representable data is the identity.
-/

inductive Json : Type where
  | null : Json
  | bool (b : Bool) : Json
  | num (n : Int) : Json
  | str (s : String) : Json
  | arr (elems : List Json) : Json
  | obj (fields : List (String × Json)) : Json

/-- Python `d.get(k)` / `k in d` lookup over an ordered association list. -/
def lookupJ : List (String × Json) → String → Option Json
  | [], _ => none
  | kv :: rest, k => if kv.1 = k then some kv.2 else lookupJ rest k

/-- Python `k in d`. -/
def containsKey (fs : List (String × Json)) (k : String) : Bool :=
  (lookupJ fs k).isSome

/-- Python `d[k] = v`: update in place when the key exists, append otherwise. -/
def setKey : List (String × Json) → String → Json → List (String × Json)
  | [], k, v => [(k, v)]
  | kv :: rest, k, v => if kv.1 = k then (k, v) :: rest else kv :: setKey rest k v

/-- Python `d[k] = v` in the specific situation where it is guarded by
`if k not in d` (database.py load/save normalization): append only when missing. -/
def fillKey (fs : List (String × Json)) (k : String) (v : Json) : List (String × Json) :=
  if containsKey fs k then fs else fs ++ [(k, v)]

def isObj : Json → Bool
  | .obj _ => true
  | _ => false

/-- Python `isinstance(x, list)`. -/
def isListJ : Json → Bool
  | .arr _ => true
  | _ => false

def isStrJ : Json → Bool
  | .str _ => true
  | _ => false

def isSomeList : Option Json → Bool
  | some (.arr _) => true
  | _ => false

def isSomeStr : Option Json → Bool
  | some (.str _) => true
  | _ => false

def isSomeBool : Option Json → Bool
  | some (.bool _) => true
  | _ => false

/-- The canonical record built from a bare string, used by load (lines 75-81),
JSON import (lines 175-181) and text import (lines 193-199) of database.py:
the dict literal with keys text, label, tags, is_markdown, is_template. -/
def strRecord (s : String) : Json :=
  .obj [("text", .str s), ("label", .str ""), ("tags", .arr []),
        ("is_markdown", .bool false), ("is_template", .bool false)]

/-- load_snippets, lines 60-70: add each of the five canonical fields only
when the key is missing; present values are kept unchanged. -/
def loadNormalizeObj (fs : List (String × Json)) : List (String × Json) :=
  fillKey (fillKey (fillKey (fillKey (fillKey fs "text" (.str ""))
    "label" (.str "")) "tags" (.arr [])) "is_markdown" (.bool false))
    "is_template" (.bool false)

/-- load_snippets, lines 58-81: dict records are field-filled, bare strings
become canonical records, any other element is skipped (not appended). -/
def loadNormalize : Json → Option Json
  | .obj fs => some (.obj (loadNormalizeObj fs))
  | .str s => some (strRecord s)
  | _ => none

/-- save_snippets, lines 24-32: replace a non-list tags value with [],
fill missing is_markdown / is_template; text and label are not touched. -/
def saveNormalizeObj (fs : List (String × Json)) : List (String × Json) :=
  fillKey (fillKey
    (if isSomeList (lookupJ fs "tags") then fs else setKey fs "tags" (.arr []))
    "is_markdown" (.bool false)) "is_template" (.bool false)

def saveNormalize : Json → Json
  | .obj fs => .obj (saveNormalizeObj fs)
  | j => j

/-- The state of the backing JSON file. -/
inductive FileState : Type where
  | absent : FileState
  | ioError (msg : String) : FileState
  | badJson : FileState
  | json (j : Json) : FileState

/-- _get_default_snippets, lines 92-145 of database.py (the triple-quoted
literals keep their 8-space continuation indentation). -/
def defaultSnippets : List Json :=
  [ .obj [("text", .str "Site name: Picayune Fire\n        URL: https://picayunefire.s1-tastewp.com\n        Username: admin\n        Password: sFmKkoOPW_g"),
          ("label", .str "WordPress Login"),
          ("tags", .arr [.str "credentials", .str "web"]),
          ("is_markdown", .bool false),
          ("is_template", .bool false)],
    .obj [("text", .str "# Meeting Notes Template\n\n        ## Meeting Information\n        - **Date**: [Date]\n        - **Time**: [Time]\n        - **Location**: [Location]\n        - **Attendees**: [Names]\n\n        ## Agenda\n        1. [Topic 1]\n        2. [Topic 2]\n        3. [Topic 3]\n\n        ## Discussion Points\n        * \n\n        ## Action Items\n        - [ ] [Task 1] - Assigned to: [Name]\n        - [ ] [Task 2] - Assigned to: [Name]\n        - [ ] [Task 3] - Assigned to: [Name]\n\n        ## Next Meeting\n        - **Date**: [Date]\n        - **Time**: [Time]\n        - **Location**: [Location]"),
          ("label", .str "Meeting Notes"),
          ("tags", .arr [.str "template", .str "business"]),
          ("is_markdown", .bool true),
          ("is_template", .bool true)] ]

/-- load_snippets, lines 42-90 of database.py. -/
def load_snippets : FileState → List Json × String
  | .absent => (defaultSnippets, "Created default snippets")
  | .ioError m => ([], "Error loading snippets: " ++ m)
  | .badJson => ([], "Error reading saved snippets file")
  | .json (.arr elems) =>
      if elems.isEmpty then ([], "No snippets found")
      else
        let upd := elems.filterMap loadNormalize
        let n := upd.length
        (upd, s!"Loaded {n} saved snippets")
  | .json _ => ([], "Invalid snippet format")

/-- save_snippets, lines 18-40 of database.py.  A non-dict entry raises
AttributeError at snippet.get before anything is written; json.dump then
overwrites the file with the full normalized array.  (The I/O failure of
the write itself is outside the modelled state; the exception text of the
AttributeError is abstracted to a fixed string.) -/
def save_snippets (data : List Json) (st : FileState) : (Bool × String) × FileState :=
  if data.all isObj then
    let upd := data.map saveNormalize
    let n := upd.length
    ((true, s!"Saved {n} snippets"), .json (.arr upd))
  else
    ((false, "Error saving: snippet is not a mapping"), st)

/-- An import source file: either unreadable (open/read raises OSError with
the given text) or readable with raw text plus the result of JSON-parsing
that text (used only on the .json branch). -/
inductive ImportFile : Type where
  | unreadable (msg : String) : ImportFile
  | readable (text : String) (parsed : Except String Json) : ImportFile

/-- import_from_file, lines 163-181: dict elements keep their present values
under item.get with defaults; bare strings become canonical records; any
other element is skipped. -/
def standardizeItem : Json → Option Json
  | .obj fs =>
      some (.obj [("text", (lookupJ fs "text").getD (.str "")),
                  ("label", (lookupJ fs "label").getD (.str "")),
                  ("tags", (lookupJ fs "tags").getD (.arr [])),
                  ("is_markdown", (lookupJ fs "is_markdown").getD (.bool false)),
                  ("is_template", (lookupJ fs "is_template").getD (.bool false))])
  | .str s => some (strRecord s)
  | _ => none

/-- Python str.strip() / regex \s whitespace (ASCII part; the exotic Unicode
space characters are outside the modelled alphabet). -/
def pyIsSpace (c : Char) : Bool :=
  c == ' ' || c == '\t' || c == '\n' || c == '\r' || c == '\x0b' || c == '\x0c'

/-- Python line.strip(). -/
def pyStrip (s : String) : String :=
  String.mk (((s.toList.dropWhile pyIsSpace).reverse.dropWhile pyIsSpace).reverse)

/-- Split a character list at every newline (the line decomposition that
readlines induces: readlines keeps each terminating newline, but the
terminator is removed by the strip that follows; splitting at the newline
character differs only by a trailing empty segment, which strips to ""
and is skipped by the same blank-line guard). -/
def splitLines : List Char → List (List Char)
  | [] => [[]]
  | c :: cs =>
      if c == '\n' then [] :: splitLines cs
      else
        match splitLines cs with
        | [] => [[c]]
        | l :: ls => (c :: l) :: ls

/-- import_from_file, lines 191-199: one line of the text file; a snippet
for a non-blank stripped line, nothing for a blank one. -/
def textLineOf (line : List Char) : Option Json :=
  let t := pyStrip (String.mk line)
  if t == "" then none else some (strRecord t)

/-- import_from_file, lines 184-201: readlines / one snippet per non-blank
stripped line. -/
def importTextLines (text : String) : List Json :=
  (splitLines text.toList).filterMap textLineOf

/-- Python str.lower() (character-wise, as a list map; Char.toLower covers
the ASCII letters that extensions are made of). -/
def pyLower (s : String) : String :=
  String.mk (s.toList.map Char.toLower)

/-- import_from_file, lines 147-203 of database.py.  `path_ext` is the
result of os.path.splitext(file_path)[1] (line 151).  The result is an
Option because the source function can fall off the end of the try block:
when the extension is .json and the parsed top-level value is not a list,
no return statement executes and Python returns None. -/
def import_from_file (path_ext : String) (fd : ImportFile) : Option (List Json × String) :=
  match fd with
  | .unreadable m => some ([], "Import error: " ++ m)
  | .readable text parsed =>
      if pyLower path_ext = ".json" then
        match parsed with
        | .error e => some ([], "Import error: " ++ e)
        | .ok (.arr items) =>
            let out := items.filterMap standardizeItem
            let n := out.length
            some (out, s!"Imported {n} snippets from JSON")
        | .ok _ => none
      else
        let out := importTextLines text
        let n := out.length
        some (out, s!"Imported {n} snippets from text file")

/-- Python `0 <= idx < len(snippets)`. -/
def inRange (i : Int) (n : Nat) : Bool :=
  decide (0 ≤ i) && decide (i < (n : Int))

/-- bulk_update_snippets, lines 347-348: merge the update dict into one
record, key by key in dict order. -/
def updateRecord (upd : List (String × Json)) : Json → Json
  | .obj fs => .obj (upd.foldl (fun acc kv => setKey acc kv.1 kv.2) fs)
  | j => j

def modifyAt : List Json → Nat → (Json → Json) → List Json
  | [], _, _ => []
  | x :: xs, 0, f => f x :: xs
  | x :: xs, Nat.succ n, f => x :: modifyAt xs n f

/-- bulk_update_snippets, lines 344-349: the for-loop over requested indices,
checking each against the current length and counting every in-range entry. -/
def updLoop (upd : List (String × Json)) : List Int → List Json → List Json × Nat
  | [], sn => (sn, 0)
  | i :: rest, sn =>
      if inRange i sn.length then
        let r := updLoop upd rest (modifyAt sn i.toNat (updateRecord upd))
        (r.1, r.2 + 1)
      else updLoop upd rest sn

/-- bulk_update_snippets, lines 327-362 of database.py. -/
def bulk_update_snippets (ids : List Int) (upd : List (String × Json)) (st : FileState) :
    (Bool × String) × FileState :=
  let sn := (load_snippets st).1
  if sn.isEmpty then ((false, "No snippets to update"), st)
  else
    let r := updLoop upd ids sn
    let c := r.2
    if 0 < c then
      let sv := save_snippets r.1 st
      if sv.1.1 then ((true, s!"Updated {c} snippets"), sv.2)
      else ((false, "Failed to save updates"), sv.2)
    else ((false, "No snippets were updated"), st)

/-- bulk_delete_snippets, lines 384-387: the for-loop popping each in-range
index from the shrinking list. -/
def popLoop : List Int → List Json → List Json × Nat
  | [], sn => (sn, 0)
  | i :: rest, sn =>
      if inRange i sn.length then
        let r := popLoop rest (sn.eraseIdx i.toNat)
        (r.1, r.2 + 1)
      else popLoop rest sn

/-- Python `sorted(set(snippet_ids), reverse=True)` (line 380): the
descending sorted sequence of the distinct requested indices. -/
def sortedDescDedup (ids : List Int) : List Int :=
  List.insertionSort (fun a b => a ≥ b) ids.dedup

/-- bulk_delete_snippets, lines 364-400 of database.py. -/
def bulk_delete_snippets (ids : List Int) (st : FileState) :
    (Bool × String) × FileState :=
  let sn := (load_snippets st).1
  if sn.isEmpty then ((false, "No snippets to delete"), st)
  else
    let r := popLoop (sortedDescDedup ids) sn
    let c := r.2
    if 0 < c then
      let sv := save_snippets r.1 st
      if sv.1.1 then ((true, s!"Deleted {c} snippets"), sv.2)
      else ((false, "Failed to save after deletion"), sv.2)
    else ((false, "No snippets were deleted"), st)

/-- tags value is a list, after checking canonical element types. -/
def tagsOk : Option Json → Bool
  | some (.arr ts) => ts.all isStrJ
  | _ => false

/-- A record having exactly the five canonical fields with the stated types
(five successful typed lookups over five entries force the key set). -/
def isCanonical : Json → Bool
  | .obj fs =>
      isSomeStr (lookupJ fs "text") && isSomeStr (lookupJ fs "label")
        && tagsOk (lookupJ fs "tags")
        && isSomeBool (lookupJ fs "is_markdown") && isSomeBool (lookupJ fs "is_template")
        && fs.length == 5
  | _ => false

/-- All five canonical keys are present on a record. -/
def hasFiveFields : Json → Bool
  | .obj fs =>
      containsKey fs "text" && containsKey fs "label" && containsKey fs "tags"
        && containsKey fs "is_markdown" && containsKey fs "is_template"
  | _ => false

/-- Python regex word character (\w), ASCII part, for the \b boundary test. -/
def isWordChar (c : Char) : Bool :=
  c.isAlphanum || c == '_'

/-- The alternation of PASSWORD_PATTERN (utils.py line 11), in source order:
password|pass|pwd|secret|token|key|auth|app pass. -/
def kwChars : List (List Char) :=
  ["password", "pass", "pwd", "secret", "token", "key", "auth", "app pass"].map
    String.toList

/-- Match one alternation literal case-insensitively at the head of the
input; returns the consumed original characters and the remainder. -/
def matchKw : List Char → List Char → Option (List Char × List Char)
  | [], cs => some ([], cs)
  | _ :: _, [] => none
  | k :: ks, c :: cs =>
      if k == c.toLower then
        match matchKw ks cs with
        | some pr => some (c :: pr.1, pr.2)
        | none => none
      else none

def notNewline (c : Char) : Bool :=
  !(c == '\n')

/-- Backtracking of the greedy trailing \s* against (.+)$ when the
whitespace run reaches the end of the string: split off the last
non-newline whitespace character, if any. -/
def lastNonNewline (ws : List Char) : Option (List Char × Char × List Char) :=
  let rev := ws.reverse
  match rev.dropWhile (fun c => c == '\n') with
  | [] => none
  | c :: rest => some (rest.reverse, c, (rev.takeWhile (fun c => c == '\n')).reverse)

/-- The `\s*)(.+)$` tail of PASSWORD_PATTERN after the separator: greedy
whitespace (which may cross newlines), then at least one character up to
the end of the line.  Returns (whitespace inside group 1, group 2, rest). -/
def takeValue (input : List Char) : Option (List Char × List Char × List Char) :=
  let ws := input.takeWhile pyIsSpace
  match input.dropWhile pyIsSpace with
  | c :: rest =>
      some (ws, (c :: rest).takeWhile notNewline, (c :: rest).dropWhile notNewline)
  | [] =>
      match lastNonNewline ws with
      | some pr => some (pr.1, [pr.2.1], pr.2.2)
      | none => none

def sepChar (c : Char) : Bool :=
  c == ':' || c == '='

/-- One alternative of PASSWORD_PATTERN tried at the current position:
literal keyword, \s*, [:=], then the trailing \s*)(.+)$.  Returns
(group 1 original characters, group 2, rest of the input). -/
def matchFull (kw : List Char) (cs : List Char) : Option (List Char × List Char × List Char) :=
  match matchKw kw cs with
  | none => none
  | some pr =>
      let ws1 := pr.2.takeWhile pyIsSpace
      match pr.2.dropWhile pyIsSpace with
      | c :: r3 =>
          if sepChar c then
            match takeValue r3 with
            | some tv => some (pr.1 ++ ws1 ++ [c] ++ tv.1, tv.2.1, tv.2.2)
            | none => none
          else none
      | [] => none

/-- PASSWORD_PATTERN attempted at one position: the \b test (every
alternative starts with a word character, so the boundary holds exactly
when the preceding character is not a word character), then the
alternatives in source order, each with its full continuation. -/
def tryMatchAt (prevWord : Bool) (cs : List Char) : Option (List Char × List Char × List Char) :=
  if prevWord then none
  else kwChars.findSome? (fun k => matchFull k cs)

/-- The replacement template r'\1●●●●●●●●' keeps group 1 and substitutes
the eight-character marker for group 2. -/
def maskMarker : List Char := "●●●●●●●●".toList

def isWordOpt : Option Char → Bool
  | some c => isWordChar c
  | none => false

/-- PASSWORD_PATTERN.sub: scan left to right, replace each non-overlapping
match, resume after the replaced value.  Each step consumes at least one
input character, so fuel = length + 1 never runs out. -/
def maskScan : Nat → Bool → List Char → List Char
  | 0, _, cs => cs
  | Nat.succ _, _, [] => []
  | Nat.succ fuel, prevWord, c :: cs =>
      match tryMatchAt prevWord (c :: cs) with
      | some m => m.1 ++ maskMarker ++ maskScan fuel (isWordOpt m.2.1.getLast?) m.2.2
      | none => c :: maskScan fuel (isWordChar c) cs

/-- mask_sensitive_data, utils.py lines 32-36. -/
def mask_sensitive_data (s : String) : String :=
  String.mk (maskScan (s.toList.length + 1) false s.toList)

/-- Some alternation literal matches case-insensitively at this position
(ignoring the boundary and continuation requirements). -/
def ciMatches : List Char → List Char → Bool
  | [], _ => true
  | _ :: _, [] => false
  | k :: ks, c :: cs => k == c.toLower && ciMatches ks cs

def kwHere (cs : List Char) : Bool :=
  kwChars.any (fun k => ciMatches k cs)

/-- Some recognized credential keyword occurs (case-insensitively) somewhere
in the text. -/
def hasKw : List Char → Bool
  | [] => false
  | c :: cs => kwHere (c :: cs) || hasKw cs

/-- config.py PASSWORD_CHARS: string.ascii_lowercase. -/
def lowercaseChars : List Char := "abcdefghijklmnopqrstuvwxyz".toList

/-- config.py PASSWORD_CHARS: string.ascii_uppercase. -/
def uppercaseChars : List Char := "ABCDEFGHIJKLMNOPQRSTUVWXYZ".toList

/-- config.py PASSWORD_CHARS: string.digits. -/
def digitChars : List Char := "0123456789".toList

/-- config.py PASSWORD_CHARS: the special character string. -/
def specialChars : List Char := "!@#$%^&*()-_=+[]\x7b\x7d|;:,.<>?/".toList

/-- generate_password, utils.py lines 41-48: chars starts as lowercase and
appends each enabled class in order. -/
def passwordPool (use_uppercase use_digits use_special : Bool) : List Char :=
  lowercaseChars ++ (if use_uppercase then uppercaseChars else [])
    ++ (if use_digits then digitChars else [])
    ++ (if use_special then specialChars else [])

/-- generate_password, utils.py lines 38-52.  random.choice(chars) is
modelled by an arbitrary index stream `pick`, reduced modulo the pool size
(random.choice always returns an element at a valid index). -/
def generate_password (length : Nat) (use_uppercase use_digits use_special : Bool)
    (pick : Nat → Nat) : String :=
  let chars := passwordPool use_uppercase use_digits use_special
  String.mk ((List.range length).map (fun i => chars.getD (pick i % chars.length) 'a'))

theorem lookupJ_append (l1 l2 : List (String × Json)) (k : String) :
    lookupJ (l1 ++ l2) k = ((lookupJ l1 k).rec (lookupJ l2 k) (fun v => some v)) := by
  induction l1 with
  | nil => simp [lookupJ]
  | cons kv rest ih =>
      by_cases h : kv.1 = k
      · simp [lookupJ, h]
      · simp [lookupJ, h, ih]

theorem lookupJ_append_left (l1 l2 : List (String × Json)) (k : String)
    (h : containsKey l1 k = true) : lookupJ (l1 ++ l2) k = lookupJ l1 k := by
  rw [lookupJ_append]
  unfold containsKey at h
  cases hv : lookupJ l1 k with
  | none => rw [hv] at h; simp [Option.isSome] at h
  | some v => simp

theorem containsKey_append_left (l1 l2 : List (String × Json)) (k : String)
    (h : containsKey l1 k = true) : containsKey (l1 ++ l2) k = true := by
  unfold containsKey at h ⊢
  rw [lookupJ_append_left l1 l2 k h]
  exact h

theorem containsKey_append_self (l : List (String × Json)) (k : String) (v : Json) :
    containsKey (l ++ [(k, v)]) k = true := by
  unfold containsKey
  rw [lookupJ_append]
  cases hv : lookupJ l k with
  | none => simp [lookupJ]
  | some w => simp

theorem lookupJ_setKey_self (l : List (String × Json)) (k : String) (v : Json) :
    lookupJ (setKey l k v) k = some v := by
  induction l with
  | nil => simp [setKey, lookupJ]
  | cons kv rest ih =>
      by_cases h : kv.1 = k
      · simp [setKey, h, lookupJ]
      · simp [setKey, h, lookupJ, ih]

theorem containsKey_fillKey_self (l : List (String × Json)) (k : String) (v : Json) :
    containsKey (fillKey l k v) k = true := by
  unfold fillKey
  by_cases h : containsKey l k = true
  · simp [h]
  · simp [eq_false_of_ne_true h, containsKey_append_self]

theorem containsKey_fillKey_mono (l : List (String × Json)) (k k2 : String) (v : Json)
    (h : containsKey l k2 = true) : containsKey (fillKey l k v) k2 = true := by
  unfold fillKey
  by_cases hc : containsKey l k = true
  · simp [hc, h]
  · simp [eq_false_of_ne_true hc, containsKey_append_left _ _ _ h]

theorem fillKey_of_contains (l : List (String × Json)) (k : String) (v : Json)
    (h : containsKey l k = true) : fillKey l k v = l := by
  unfold fillKey
  simp [h]

theorem lookupJ_fillKey_of_contains (l : List (String × Json)) (k k2 : String) (v : Json)
    (h : containsKey l k2 = true) : lookupJ (fillKey l k v) k2 = lookupJ l k2 := by
  unfold fillKey
  by_cases hc : containsKey l k = true
  · simp [hc]
  · simp [eq_false_of_ne_true hc, lookupJ_append_left _ _ _ h]

theorem containsKey_of_isSomeStr (l : List (String × Json)) (k : String)
    (h : isSomeStr (lookupJ l k) = true) : containsKey l k = true := by
  unfold containsKey
  cases hv : lookupJ l k with
  | none => rw [hv] at h; simp [isSomeStr] at h
  | some v => simp

theorem containsKey_of_isSomeBool (l : List (String × Json)) (k : String)
    (h : isSomeBool (lookupJ l k) = true) : containsKey l k = true := by
  unfold containsKey
  cases hv : lookupJ l k with
  | none => rw [hv] at h; simp [isSomeBool] at h
  | some v => simp

theorem containsKey_of_tagsOk (l : List (String × Json)) (k : String)
    (h : tagsOk (lookupJ l k) = true) : containsKey l k = true := by
  unfold containsKey
  cases hv : lookupJ l k with
  | none => rw [hv] at h; simp [tagsOk] at h
  | some v => simp

theorem isSomeList_of_tagsOk (o : Option Json) (h : tagsOk o = true) :
    isSomeList o = true := by
  cases o with
  | none => simp [tagsOk] at h
  | some v => cases v <;> simp_all [tagsOk, isSomeList]

theorem hasFiveFields_of_isCanonical (j : Json) (h : isCanonical j = true) :
    hasFiveFields j = true := by
  cases j with
  | obj fs =>
      unfold isCanonical at h
      simp only [Bool.and_eq_true] at h
      unfold hasFiveFields
      simp only [Bool.and_eq_true]
      exact ⟨⟨⟨⟨containsKey_of_isSomeStr _ _ h.1.1.1.1.1,
        containsKey_of_isSomeStr _ _ h.1.1.1.1.2⟩,
        containsKey_of_tagsOk _ _ h.1.1.1.2⟩,
        containsKey_of_isSomeBool _ _ h.1.1.2⟩,
        containsKey_of_isSomeBool _ _ h.1.2⟩
  | null => simp [isCanonical] at h
  | bool b => simp [isCanonical] at h
  | num n => simp [isCanonical] at h
  | str s => simp [isCanonical] at h
  | arr l => simp [isCanonical] at h

theorem loadNormalizeObj_of_fiveFields (fs : List (String × Json))
    (h : hasFiveFields (.obj fs) = true) : loadNormalizeObj fs = fs := by
  unfold hasFiveFields at h
  simp only [Bool.and_eq_true] at h
  unfold loadNormalizeObj
  rw [fillKey_of_contains _ _ _ h.1.1.1.1, fillKey_of_contains _ _ _ h.1.1.1.2,
    fillKey_of_contains _ _ _ h.1.1.2, fillKey_of_contains _ _ _ h.1.2,
    fillKey_of_contains _ _ _ h.2]

theorem loadNormalize_of_isCanonical (j : Json) (h : isCanonical j = true) :
    loadNormalize j = some j := by
  cases j with
  | obj fs =>
      have h5 := hasFiveFields_of_isCanonical _ h
      simp [loadNormalize, loadNormalizeObj_of_fiveFields fs h5]
  | null => simp [isCanonical] at h
  | bool b => simp [isCanonical] at h
  | num n => simp [isCanonical] at h
  | str s => simp [isCanonical] at h
  | arr l => simp [isCanonical] at h

theorem saveNormalizeObj_id (fs : List (String × Json))
    (h1 : isSomeList (lookupJ fs "tags") = true)
    (h2 : containsKey fs "is_markdown" = true)
    (h3 : containsKey fs "is_template" = true) : saveNormalizeObj fs = fs := by
  unfold saveNormalizeObj
  rw [if_pos h1, fillKey_of_contains _ _ _ h2, fillKey_of_contains _ _ _ h3]

theorem saveNormalize_of_isCanonical (j : Json) (h : isCanonical j = true) :
    saveNormalize j = j := by
  cases j with
  | obj fs =>
      unfold isCanonical at h
      simp only [Bool.and_eq_true] at h
      simp [saveNormalize, saveNormalizeObj_id fs (isSomeList_of_tagsOk _ h.1.1.1.2)
        (containsKey_of_isSomeBool _ _ h.1.1.2) (containsKey_of_isSomeBool _ _ h.1.2)]
  | null => simp [isCanonical] at h
  | bool b => simp [isCanonical] at h
  | num n => simp [isCanonical] at h
  | str s => simp [isCanonical] at h
  | arr l => simp [isCanonical] at h

theorem isObj_of_isCanonical (j : Json) (h : isCanonical j = true) :
    isObj j = true := by
  cases j <;> simp_all [isCanonical, isObj]

theorem filterMap_id_of_all_some (l : List Json) (f : Json → Option Json)
    (h : ∀ r ∈ l, f r = some r) : l.filterMap f = l := by
  induction l with
  | nil => simp
  | cons x xs ih =>
      rw [List.filterMap_cons, h x (by simp)]
      rw [ih (fun r hr => h r (by simp [hr]))]

theorem all_isObj_of_canonical (S : List Json) (h : ∀ r ∈ S, isCanonical r = true) :
    S.all isObj = true := by
  rw [List.all_eq_true]
  exact fun r hr => isObj_of_isCanonical r (h r hr)

theorem map_saveNormalize_of_canonical (S : List Json)
    (h : ∀ r ∈ S, isCanonical r = true) : S.map saveNormalize = S := by
  induction S with
  | nil => simp
  | cons x xs ih =>
      rw [List.map_cons, saveNormalize_of_isCanonical x (h x (by simp)),
        ih (fun r hr => h r (by simp [hr]))]

/-- C1: for every list S of canonical snippets, saving S and then loading
reproduces S exactly, and every loaded record carries all five canonical
fields. -/
theorem c1_save_load_round_trip (S : List Json) (st : FileState)
    (h : ∀ r ∈ S, isCanonical r = true) :
    (load_snippets (save_snippets S st).2).1 = S ∧
      ∀ r ∈ (load_snippets (save_snippets S st).2).1, hasFiveFields r = true := by
  have hst : (save_snippets S st).2 = .json (.arr S) := by
    simp [save_snippets, all_isObj_of_canonical S h, map_saveNormalize_of_canonical S h]
  have hload : (load_snippets (FileState.json (.arr S))).1 = S := by
    cases hS : S.isEmpty with
    | true =>
        rw [List.isEmpty_iff] at hS
        simp [load_snippets, hS]
    | false =>
        simp [load_snippets, hS,
          filterMap_id_of_all_some S loadNormalize
            (fun r hr => loadNormalize_of_isCanonical r (h r hr))]
  rw [hst, hload]
  exact ⟨rfl, fun r hr => hasFiveFields_of_isCanonical r (h r hr)⟩

theorem c1_save_load_round_trip_witness :
    (∀ r ∈ [strRecord "hi"], isCanonical r = true) ∧
      ((load_snippets (save_snippets [strRecord "hi"] FileState.absent).2).1
          = [strRecord "hi"] ∧
        ∀ r ∈ (load_snippets (save_snippets [strRecord "hi"] FileState.absent).2).1,
          hasFiveFields r = true) :=
  ⟨by decide, c1_save_load_round_trip [strRecord "hi"] FileState.absent (by decide)⟩

theorem containsKey_of_isSomeList (l : List (String × Json)) (k : String)
    (h : isSomeList (lookupJ l k) = true) : containsKey l k = true := by
  unfold containsKey
  cases hv : lookupJ l k with
  | none => rw [hv] at h; simp [isSomeList] at h
  | some v => simp

/-- C2 counterexample: on the load path, a record whose tags value is the
scalar 0 keeps that scalar after normalization — load_snippets only fills
missing keys and never replaces a present non-list tags value, so after
load normalization tags is not always a sequence. -/
theorem c2_tags_counterexample :
    lookupJ (loadNormalizeObj [("tags", Json.num 0)]) "tags" = some (Json.num 0) ∧
      isSomeList (lookupJ (loadNormalizeObj [("tags", Json.num 0)]) "tags") = false := by
  exact ⟨rfl, rfl⟩

/-- C2 amended: load normalization guarantees the presence of all five
canonical fields on every dict record and turns a bare string into a full
canonical record, but a present field keeps its value even when mistyped;
the replacement of a non-sequence tags value with [] happens only in save
normalization, which also guarantees is_markdown and is_template (while
never adding text or label). -/
theorem c2_normalization_amended :
    (∀ fs : List (String × Json), hasFiveFields (.obj (loadNormalizeObj fs)) = true) ∧
      (∀ s : String, loadNormalize (Json.str s) = some (strRecord s)) ∧
      (∀ fs : List (String × Json),
        isSomeList (lookupJ (saveNormalizeObj fs) "tags") = true ∧
          containsKey (saveNormalizeObj fs) "is_markdown" = true ∧
          containsKey (saveNormalizeObj fs) "is_template" = true) := by
  refine ⟨fun fs => ?_, fun s => rfl, fun fs => ?_⟩
  · unfold hasFiveFields loadNormalizeObj
    simp only [Bool.and_eq_true]
    refine ⟨⟨⟨⟨?_, ?_⟩, ?_⟩, ?_⟩, ?_⟩
    · exact containsKey_fillKey_mono _ _ _ _ (containsKey_fillKey_mono _ _ _ _
        (containsKey_fillKey_mono _ _ _ _ (containsKey_fillKey_mono _ _ _ _
          (containsKey_fillKey_self _ _ _))))
    · exact containsKey_fillKey_mono _ _ _ _ (containsKey_fillKey_mono _ _ _ _
        (containsKey_fillKey_mono _ _ _ _ (containsKey_fillKey_self _ _ _)))
    · exact containsKey_fillKey_mono _ _ _ _ (containsKey_fillKey_mono _ _ _ _
        (containsKey_fillKey_self _ _ _))
    · exact containsKey_fillKey_mono _ _ _ _ (containsKey_fillKey_self _ _ _)
    · exact containsKey_fillKey_self _ _ _
  · unfold saveNormalizeObj
    have htags : isSomeList (lookupJ
        (if isSomeList (lookupJ fs "tags") then fs else setKey fs "tags" (.arr []))
        "tags") = true := by
      by_cases h : isSomeList (lookupJ fs "tags") = true
      · simp [h]
      · have hb : isSomeList (lookupJ fs "tags") = false := eq_false_of_ne_true h
        simp only [hb, Bool.false_eq_true, if_false, lookupJ_setKey_self]
        rfl
    set fs1 := if isSomeList (lookupJ fs "tags") then fs else setKey fs "tags" (.arr [])
      with hfs1
    have hc1 : containsKey fs1 "tags" = true := containsKey_of_isSomeList _ _ htags
    refine ⟨?_, ?_, ?_⟩
    · rw [lookupJ_fillKey_of_contains _ _ _ _
        (containsKey_fillKey_mono _ _ _ _ hc1),
        lookupJ_fillKey_of_contains _ _ _ _ hc1]
      exact htags
    · exact containsKey_fillKey_mono _ _ _ _ (containsKey_fillKey_self _ _ _)
    · exact containsKey_fillKey_self _ _ _

theorem sortedDescDedup_toFinset_eq (ids1 ids2 : List Int)
    (h : ids1.toFinset = ids2.toFinset) : sortedDescDedup ids1 = sortedDescDedup ids2 := by
  unfold sortedDescDedup
  apply List.eq_of_perm_of_sorted (r := fun a b : Int => a ≥ b)
  · exact (List.perm_insertionSort _ _).trans
      (((List.perm_ext_iff_of_nodup (List.nodup_dedup _) (List.nodup_dedup _)).mpr
        (fun a => by
          rw [List.mem_dedup, List.mem_dedup, ← List.mem_toFinset,
            ← List.mem_toFinset, h])).trans
        (List.perm_insertionSort _ _).symm)
  · exact List.sorted_insertionSort _ _
  · exact List.sorted_insertionSort _ _

/-- C3: bulk delete deduplicates the requested indices, sorts them in
descending order and removes in-range positions one at a time, so the
result depends only on the set of indices supplied; on a 3-element store,
deleting indices 0 and 2 in either supplied order leaves exactly the
snippet that was at position 1. -/
theorem c3_bulk_delete_order_independent :
    (∀ (ids1 ids2 : List Int) (st : FileState), ids1.toFinset = ids2.toFinset →
        bulk_delete_snippets ids1 st = bulk_delete_snippets ids2 st) ∧
      bulk_delete_snippets [0, 2]
          (.json (.arr [strRecord "a", strRecord "b", strRecord "c"]))
        = ((true, "Deleted 2 snippets"), .json (.arr [strRecord "b"])) ∧
      bulk_delete_snippets [2, 0]
          (.json (.arr [strRecord "a", strRecord "b", strRecord "c"]))
        = ((true, "Deleted 2 snippets"), .json (.arr [strRecord "b"])) := by
  refine ⟨fun ids1 ids2 st h => ?_, rfl, rfl⟩
  unfold bulk_delete_snippets
  rw [sortedDescDedup_toFinset_eq ids1 ids2 h]

theorem c3_bulk_delete_order_independent_witness :
    ([0, 2] : List Int).toFinset = ([2, 0] : List Int).toFinset ∧
      bulk_delete_snippets [0, 2]
          (.json (.arr [strRecord "a", strRecord "b", strRecord "c"]))
        = bulk_delete_snippets [2, 0]
          (.json (.arr [strRecord "a", strRecord "b", strRecord "c"])) :=
  ⟨by decide, c3_bulk_delete_order_independent.1 [0, 2] [2, 0]
    (.json (.arr [strRecord "a", strRecord "b", strRecord "c"])) (by decide)⟩

theorem popLoop_out_of_range (ids : List Int) (sn : List Json)
    (h : ∀ i ∈ ids, inRange i sn.length = false) : popLoop ids sn = (sn, 0) := by
  induction ids with
  | nil => rfl
  | cons i rest ih =>
      unfold popLoop
      rw [h i (by simp)]
      simp only [Bool.false_eq_true, if_false]
      exact ih (fun j hj => h j (by simp [hj]))

theorem modifyAt_length (l : List Json) (n : Nat) (f : Json → Json) :
    (modifyAt l n f).length = l.length := by
  induction l generalizing n with
  | nil => cases n <;> rfl
  | cons x xs ih => cases n with
      | zero => rfl
      | succ m => simp only [modifyAt, List.length_cons, ih]

theorem updLoop_out_of_range (upd : List (String × Json)) (ids : List Int) (sn : List Json)
    (h : ∀ i ∈ ids, inRange i sn.length = false) : updLoop upd ids sn = (sn, 0) := by
  induction ids with
  | nil => rfl
  | cons i rest ih =>
      unfold updLoop
      rw [h i (by simp)]
      simp only [Bool.false_eq_true, if_false]
      exact ih (fun j hj => h j (by simp [hj]))

theorem updLoop_fst_length (upd : List (String × Json)) (ids : List Int) (sn : List Json) :
    (updLoop upd ids sn).1.length = sn.length := by
  induction ids generalizing sn with
  | nil => rfl
  | cons i rest ih =>
      unfold updLoop
      by_cases h : inRange i sn.length = true
      · simp only [h, if_true]
        rw [ih (modifyAt sn i.toNat (updateRecord upd))]
        exact modifyAt_length sn i.toNat (updateRecord upd)
      · simp only [eq_false_of_ne_true h, Bool.false_eq_true, if_false]
        exact ih sn

theorem updLoop_count (upd : List (String × Json)) (ids : List Int) (sn : List Json) :
    (updLoop upd ids sn).2 = ids.countP (fun i => inRange i sn.length) := by
  induction ids generalizing sn with
  | nil => rfl
  | cons i rest ih =>
      unfold updLoop
      by_cases h : inRange i sn.length = true
      · simp only [h, if_true, List.countP_cons, if_true]
        rw [ih (modifyAt sn i.toNat (updateRecord upd)), modifyAt_length]
      · simp only [eq_false_of_ne_true h, Bool.false_eq_true, if_false, List.countP_cons]
        rw [ih sn]
        simp [eq_false_of_ne_true h]

theorem updateRecord_isObj (upd : List (String × Json)) (j : Json)
    (h : isObj j = true) : isObj (updateRecord upd j) = true := by
  cases j <;> simp_all [isObj, updateRecord]

theorem modifyAt_all_isObj (l : List Json) (n : Nat) (f : Json → Json)
    (h : l.all isObj = true) (hf : ∀ j, isObj j = true → isObj (f j) = true) :
    (modifyAt l n f).all isObj = true := by
  induction l generalizing n with
  | nil => cases n <;> rfl
  | cons x xs ih =>
      simp only [List.all_cons, Bool.and_eq_true] at h
      cases n with
      | zero => simp only [modifyAt, List.all_cons, Bool.and_eq_true]
                exact ⟨hf x h.1, h.2⟩
      | succ m => simp only [modifyAt, List.all_cons, Bool.and_eq_true]
                  exact ⟨h.1, ih m h.2⟩

theorem updLoop_all_isObj (upd : List (String × Json)) (ids : List Int) (sn : List Json)
    (h : sn.all isObj = true) : (updLoop upd ids sn).1.all isObj = true := by
  induction ids generalizing sn with
  | nil => exact h
  | cons i rest ih =>
      unfold updLoop
      by_cases hr : inRange i sn.length = true
      · simp only [hr, if_true]
        exact ih _ (modifyAt_all_isObj sn i.toNat (updateRecord upd) h
          (updateRecord_isObj upd))
      · simp only [eq_false_of_ne_true hr, Bool.false_eq_true, if_false]
        exact ih sn h

theorem eraseIdx_all_isObj (l : List Json) (n : Nat) (h : l.all isObj = true) :
    (l.eraseIdx n).all isObj = true := by
  induction l generalizing n with
  | nil => cases n <;> rfl
  | cons x xs ih =>
      simp only [List.all_cons, Bool.and_eq_true] at h
      cases n with
      | zero => exact h.2
      | succ m => simp only [List.eraseIdx, List.all_cons, Bool.and_eq_true]
                  exact ⟨h.1, ih m h.2⟩

theorem popLoop_all_isObj (ids : List Int) (sn : List Json)
    (h : sn.all isObj = true) : (popLoop ids sn).1.all isObj = true := by
  induction ids generalizing sn with
  | nil => exact h
  | cons i rest ih =>
      unfold popLoop
      by_cases hr : inRange i sn.length = true
      · simp only [hr, if_true]
        exact ih _ (eraseIdx_all_isObj sn i.toNat h)
      · simp only [eq_false_of_ne_true hr, Bool.false_eq_true, if_false]
        exact ih sn h

theorem filterMap_loadNormalize_all_isObj (es : List Json) :
    (es.filterMap loadNormalize).all isObj = true := by
  induction es with
  | nil => rfl
  | cons x xs ih =>
      rw [List.filterMap_cons]
      cases x with
      | null => exact ih
      | bool b => exact ih
      | num n => exact ih
      | arr l => exact ih
      | str s =>
          show (strRecord s :: xs.filterMap loadNormalize).all isObj = true
          simp only [List.all_cons, Bool.and_eq_true]
          exact ⟨rfl, ih⟩
      | obj fs =>
          show (Json.obj (loadNormalizeObj fs) :: xs.filterMap loadNormalize).all isObj = true
          simp only [List.all_cons, Bool.and_eq_true]
          exact ⟨rfl, ih⟩

theorem load_all_isObj (st : FileState) : (load_snippets st).1.all isObj = true := by
  cases st with
  | absent => rfl
  | ioError m => rfl
  | badJson => rfl
  | json j =>
      cases j with
      | arr es =>
          by_cases h : es.isEmpty = true
          · simp [load_snippets, h]
          · simp only [load_snippets, eq_false_of_ne_true h, Bool.false_eq_true, if_false]
            exact filterMap_loadNormalize_all_isObj es
      | null => rfl
      | bool b => rfl
      | num n => rfl
      | str s => rfl
      | obj fs => rfl

theorem countP_inRange_zero (ids : List Int) (n : Nat)
    (h : ∀ i ∈ ids, inRange i n = false) :
    ids.countP (fun i => inRange i n) = 0 := by
  rw [List.countP_eq_zero]
  intro a ha
  simp [h a ha]

/-- C10: whenever a bulk update or a bulk delete ends up modifying zero
records (the loaded store is empty, or every requested index is out of
range), the operation reports failure and the persisted state is left
exactly as it was — the save step is never reached. -/
theorem c10_failed_bulk_ops_never_write (st : FileState) (ids : List Int)
    (upd : List (String × Json))
    (h : (load_snippets st).1 = [] ∨
      ∀ i ∈ ids, inRange i (load_snippets st).1.length = false) :
    ((bulk_update_snippets ids upd st).1.1 = false ∧
        (bulk_update_snippets ids upd st).2 = st) ∧
      ((bulk_delete_snippets ids st).1.1 = false ∧
        (bulk_delete_snippets ids st).2 = st) := by
  by_cases he : (load_snippets st).1.isEmpty = true
  · constructor
    · unfold bulk_update_snippets
      simp only [he, if_true]
      exact ⟨trivial, trivial⟩
    · unfold bulk_delete_snippets
      simp only [he, if_true]
      exact ⟨trivial, trivial⟩
  · have hor : ∀ i ∈ ids, inRange i (load_snippets st).1.length = false := by
      cases h with
      | inl hnil => rw [List.isEmpty_iff] at he; exact absurd hnil he
      | inr hoo => exact hoo
    have hsor : ∀ i ∈ sortedDescDedup ids,
        inRange i (load_snippets st).1.length = false := by
      intro i hi
      apply hor
      have : i ∈ ids.dedup := ((List.perm_insertionSort _ _).mem_iff).mp hi
      exact List.mem_dedup.mp this
    constructor
    · unfold bulk_update_snippets
      simp only [eq_false_of_ne_true he, Bool.false_eq_true, if_false]
      rw [updLoop_count, countP_inRange_zero ids _ hor]
      simp only [Nat.lt_irrefl, if_false]
      exact ⟨trivial, trivial⟩
    · unfold bulk_delete_snippets
      simp only [eq_false_of_ne_true he, Bool.false_eq_true, if_false]
      rw [popLoop_out_of_range (sortedDescDedup ids) _ hsor]
      simp only [Nat.lt_irrefl, if_false]
      exact ⟨trivial, trivial⟩

theorem c10_failed_bulk_ops_never_write_witness :
    ((load_snippets (.json (.arr []))).1 = [] ∨
      ∀ i ∈ ([5] : List Int),
        inRange i (load_snippets (.json (.arr []))).1.length = false) ∧
      (((bulk_update_snippets [5] [("label", Json.str "x")] (.json (.arr []))).1.1 = false ∧
          (bulk_update_snippets [5] [("label", Json.str "x")] (.json (.arr []))).2
            = .json (.arr [])) ∧
        ((bulk_delete_snippets [5] (.json (.arr []))).1.1 = false ∧
          (bulk_delete_snippets [5] (.json (.arr []))).2 = .json (.arr []))) :=
  ⟨Or.inl rfl,
    c10_failed_bulk_ops_never_write (.json (.arr [])) [5] [("label", Json.str "x")]
      (Or.inl rfl)⟩

/-- C5 counterexample: on a store of length 0 with the out-of-range index 5,
bulk update does fail and updates nothing, but the diagnostic is
"No snippets to update", not the "no snippets were updated" message the
claim quantifies over all stores. -/
theorem c5_empty_store_counterexample :
    bulk_update_snippets [5] [("label", Json.str "x")] (.json (.arr []))
        = ((false, "No snippets to update"), .json (.arr [])) ∧
      "No snippets to update" ≠ "No snippets were updated" :=
  ⟨rfl, by decide⟩

/-- C5 amended: on a store that loads to a nonempty list, a bulk update
whose requested indices all lie outside the range updates 0 records and
fails with the "No snippets were updated" diagnostic; in general the
operation succeeds and reports exactly the number of in-range index
entries of the request (counted with multiplicity).  A store that loads
empty also fails without updating anything, but with the diagnostic
"No snippets to update". -/
theorem c5_bulk_update_out_of_range_amended :
    (∀ (st : FileState) (ids : List Int) (upd : List (String × Json)),
        (load_snippets st).1.isEmpty = false →
        (∀ i ∈ ids, inRange i (load_snippets st).1.length = false) →
        bulk_update_snippets ids upd st = ((false, "No snippets were updated"), st)) ∧
      (∀ (st : FileState) (ids : List Int) (upd : List (String × Json)) (k : Nat),
        k = ids.countP (fun i => inRange i (load_snippets st).1.length) →
        0 < k →
        (bulk_update_snippets ids upd st).1 = (true, s!"Updated {k} snippets")) := by
  constructor
  · intro st ids upd he hoo
    unfold bulk_update_snippets
    simp only [he, Bool.false_eq_true, if_false]
    rw [updLoop_count, countP_inRange_zero ids _ hoo]
    simp only [Nat.lt_irrefl, if_false]
  · intro st ids upd k hk hkpos
    have he : (load_snippets st).1.isEmpty = false := by
      cases hemp : (load_snippets st).1.isEmpty with
      | false => rfl
      | true =>
          rw [List.isEmpty_iff] at hemp
          rw [hk, hemp] at hkpos
          have : ∀ i ∈ ids, inRange i ([] : List Json).length = false := by
            intro i _
            simp [inRange]
          rw [countP_inRange_zero ids _ this] at hkpos
          exact absurd hkpos (by simp)
    unfold bulk_update_snippets
    simp only [he, Bool.false_eq_true, if_false]
    rw [updLoop_count]
    rw [← hk]
    simp only [hkpos, if_true]
    have hsv : (save_snippets (updLoop upd ids (load_snippets st).1).1 st).1.1 = true := by
      unfold save_snippets
      simp [updLoop_all_isObj upd ids _ (load_all_isObj st)]
    simp only [hsv, if_true]

theorem c5_bulk_update_out_of_range_amended_witness :
    ((load_snippets (.json (.arr [strRecord "a", strRecord "b", strRecord "c"]))).1.isEmpty
          = false ∧
        (∀ i ∈ ([5] : List Int),
          inRange i
            (load_snippets
              (.json (.arr [strRecord "a", strRecord "b", strRecord "c"]))).1.length
            = false) ∧
        bulk_update_snippets [5] [("label", Json.str "x")]
            (.json (.arr [strRecord "a", strRecord "b", strRecord "c"]))
          = ((false, "No snippets were updated"),
              .json (.arr [strRecord "a", strRecord "b", strRecord "c"]))) ∧
      (bulk_update_snippets [0] [("label", Json.str "x")]
          (.json (.arr [strRecord "a", strRecord "b", strRecord "c"]))).1
        = (true, "Updated 1 snippets") :=
  ⟨⟨rfl, by decide,
      c5_bulk_update_out_of_range_amended.1
        (.json (.arr [strRecord "a", strRecord "b", strRecord "c"]))
        [5] [("label", Json.str "x")] rfl (by decide)⟩,
    c5_bulk_update_out_of_range_amended.2
      (.json (.arr [strRecord "a", strRecord "b", strRecord "c"]))
      [0] [("label", Json.str "x")] 1 (by decide) (by decide)⟩

/-- C6 counterexample: loading a file whose content is the empty JSON array
returns ([], "No snippets found"); the message reports no count, unlike
the count-reporting message the claim requires for every array top level. -/
theorem c6_empty_array_counterexample :
    load_snippets (.json (.arr [])) = ([], "No snippets found") ∧
      "No snippets found" ≠ "Loaded 0 saved snippets" :=
  ⟨rfl, by decide⟩

/-- C6 amended: for every existing backing-file content, load never raises:
a file that is not valid JSON returns ([], "Error reading saved snippets
file"); any other I/O error returns ([], diagnostic); a non-array top
level returns ([], "Invalid snippet format"); a non-empty array is
normalized element-wise (dict and string elements; other elements are
dropped) and the count loaded is reported; the empty array returns
([], "No snippets found"). -/
theorem c6_load_never_raises_amended :
    (load_snippets .badJson = ([], "Error reading saved snippets file")) ∧
      (∀ m : String,
        load_snippets (.ioError m) = ([], "Error loading snippets: " ++ m)) ∧
      (∀ j : Json, isListJ j = false →
        load_snippets (.json j) = ([], "Invalid snippet format")) ∧
      (load_snippets (.json (.arr [])) = ([], "No snippets found")) ∧
      (∀ (es : List Json) (n : Nat), es.isEmpty = false →
        n = (es.filterMap loadNormalize).length →
        load_snippets (.json (.arr es))
          = (es.filterMap loadNormalize, s!"Loaded {n} saved snippets")) := by
  refine ⟨rfl, fun m => rfl, fun j hj => ?_, rfl, fun es n he hn => ?_⟩
  · cases j <;> first | rfl | (simp [isListJ] at hj)
  · subst hn
    simp [load_snippets, he]

theorem c6_load_never_raises_amended_witness :
    (isListJ (Json.num 3) = false ∧
        load_snippets (.json (.num 3)) = ([], "Invalid snippet format")) ∧
      (([Json.str "x"] : List Json).isEmpty = false ∧
        load_snippets (.json (.arr [Json.str "x"]))
          = ([strRecord "x"], "Loaded 1 saved snippets")) :=
  ⟨⟨rfl, c6_load_never_raises_amended.2.2.1 (Json.num 3) rfl⟩,
    ⟨rfl, c6_load_never_raises_amended.2.2.2.2 [Json.str "x"] 1 rfl rfl⟩⟩

/-- C4: evaluation of the code at the failing input.  Importing a .json
file whose top-level JSON value is not an array makes import_from_file
fall off the end of its try block and return None (modelled as `none`),
not the empty-list-plus-message pair the claim requires; the I/O and
parse failure parts of the claim do hold. -/
theorem c4_non_array_json_import_returns_none :
    import_from_file ".json" (.readable "3" (.ok (Json.num 3))) = none ∧
      (∀ (ext m : String), import_from_file ext (.unreadable m)
          = some ([], "Import error: " ++ m)) ∧
      (∀ (t e : String), import_from_file ".json" (.readable t (.error e))
          = some ([], "Import error: " ++ e)) :=
  ⟨rfl, fun ext m => rfl, fun t e => rfl⟩

theorem importTextLines_length (text : String) :
    (importTextLines text).length
      = ((splitLines text.toList).filter
          (fun line => !(pyStrip (String.mk line) == ""))).length := by
  unfold importTextLines
  generalize splitLines text.toList = l
  induction l with
  | nil => rfl
  | cons x xs ih =>
      rw [List.filterMap_cons, List.filter_cons]
      by_cases h : (pyStrip (String.mk x) == "") = true
      · simp [textLineOf, h, ih]
      · simp [textLineOf, eq_false_of_ne_true h, ih]

/-- C9: importing a file with a non-.json extension reads it as
newline-delimited text: each non-blank line becomes exactly one snippet
with empty label, empty tags and both flags false, blank lines produce no
snippet, and the number of imported snippets equals the number of
non-blank lines. -/
theorem c9_text_import_non_blank_lines (path_ext text : String)
    (parsed : Except String Json) (n : Nat)
    (h : pyLower path_ext ≠ ".json")
    (hn : n = (importTextLines text).length) :
    import_from_file path_ext (.readable text parsed)
        = some (importTextLines text, s!"Imported {n} snippets from text file") ∧
      n = ((splitLines text.toList).filter
          (fun line => !(pyStrip (String.mk line) == ""))).length ∧
      ∀ r ∈ importTextLines text, ∃ t : String, t ≠ "" ∧ r = strRecord t := by
  refine ⟨?_, ?_, ?_⟩
  · subst hn
    simp only [import_from_file]
    rw [if_neg h]
  · rw [hn]
    exact importTextLines_length text
  · intro r hr
    unfold importTextLines at hr
    rw [List.mem_filterMap] at hr
    obtain ⟨line, _, hsome⟩ := hr
    by_cases hb : (pyStrip (String.mk line) == "") = true
    · simp [textLineOf, hb] at hsome
    · simp only [textLineOf, eq_false_of_ne_true hb, Bool.false_eq_true, if_false,
        Option.some.injEq] at hsome
      refine ⟨pyStrip (String.mk line), fun heq => ?_, hsome.symm⟩
      rw [heq] at hb
      simp at hb

theorem c9_text_import_non_blank_lines_witness :
    (pyLower ".txt" ≠ ".json" ∧ 2 = (importTextLines "one\n\ntwo\n").length) ∧
      (import_from_file ".txt" (.readable "one\n\ntwo\n" (.ok Json.null))
          = some (importTextLines "one\n\ntwo\n", "Imported 2 snippets from text file") ∧
        2 = ((splitLines "one\n\ntwo\n".toList).filter
            (fun line => !(pyStrip (String.mk line) == ""))).length ∧
        ∀ r ∈ importTextLines "one\n\ntwo\n", ∃ t : String, t ≠ "" ∧ r = strRecord t) :=
  ⟨⟨by decide, rfl⟩,
    c9_text_import_non_blank_lines ".txt" "one\n\ntwo\n" (.ok Json.null) 2
      (by decide) rfl⟩

theorem passwordPool_length_pos (u d s : Bool) : 0 < (passwordPool u d s).length := by
  unfold passwordPool
  rw [List.length_append, List.length_append, List.length_append]
  have h : lowercaseChars.length = 26 := rfl
  omega

theorem getD_mem_of_lt (l : List Char) (n : Nat) (d : Char) (h : n < l.length) :
    l.getD n d ∈ l := by
  rw [List.getD_eq_get?, List.get?_eq_get h]
  exact List.get_mem l n h

/-- C8: the generated password consists of exactly `length` characters,
each drawn from the union of the enabled character classes, with
lowercase letters always included; in particular with length 16 and only
digits enabled every character is a lowercase letter or a digit. -/
theorem c8_generate_password_length_and_pool (length : Nat) (u d s : Bool)
    (pick : Nat → Nat) :
    (generate_password length u d s pick).length = length ∧
      ((generate_password length u d s pick).toList.all
        (fun c => (passwordPool u d s).contains c)) = true ∧
      (generate_password 16 false true false pick).length = 16 ∧
      ((generate_password 16 false true false pick).toList.all
        (fun c => c.isLower || c.isDigit)) = true := by
  have hlen : ∀ (m : Nat) (u2 d2 s2 : Bool),
      (generate_password m u2 d2 s2 pick).length = m := by
    intro m u2 d2 s2
    show ((List.range m).map (fun i =>
      (passwordPool u2 d2 s2).getD (pick i % (passwordPool u2 d2 s2).length) 'a')).length = m
    rw [List.length_map, List.length_range]
  have hmem : ∀ (m : Nat) (u2 d2 s2 : Bool) (c : Char),
      c ∈ (generate_password m u2 d2 s2 pick).toList → c ∈ passwordPool u2 d2 s2 := by
    intro m u2 d2 s2 c hc
    have hc2 : c ∈ (List.range m).map (fun i =>
        (passwordPool u2 d2 s2).getD (pick i % (passwordPool u2 d2 s2).length) 'a') := hc
    rw [List.mem_map] at hc2
    obtain ⟨i, _, hi⟩ := hc2
    rw [← hi]
    exact getD_mem_of_lt _ _ _ (Nat.mod_lt _ (passwordPool_length_pos u2 d2 s2))
  refine ⟨hlen length u d s, ?_, hlen 16 false true false, ?_⟩
  · rw [List.all_eq_true]
    intro c hc
    exact List.elem_iff.mpr (hmem length u d s c hc)
  · rw [List.all_eq_true]
    intro c hc
    have hp : ∀ x ∈ passwordPool false true false, (x.isLower || x.isDigit) = true := by
      decide
    exact hp c (hmem 16 false true false c hc)

theorem maskScan_nil (fuel : Nat) (p : Bool) : maskScan fuel p [] = [] := by
  cases fuel <;> rfl

theorem matchKw_ciMatches (k cs : List Char) (pr : List Char × List Char)
    (h : matchKw k cs = some pr) : ciMatches k cs = true := by
  induction k generalizing cs pr with
  | nil => cases cs <;> rfl
  | cons kc ks ih =>
      cases cs with
      | nil => simp [matchKw] at h
      | cons c rest =>
          unfold matchKw at h
          by_cases hb : (kc == c.toLower) = true
          · simp only [hb, if_true] at h
            unfold ciMatches
            rw [hb, Bool.true_and]
            cases hm : matchKw ks rest with
            | none => rw [hm] at h; simp at h
            | some pr2 => exact ih rest pr2 hm
          · simp [eq_false_of_ne_true hb] at h

theorem matchFull_ciMatches (k cs : List Char) (m : List Char × List Char × List Char)
    (h : matchFull k cs = some m) : ciMatches k cs = true := by
  unfold matchFull at h
  cases hm : matchKw k cs with
  | none => rw [hm] at h; simp at h
  | some pr => exact matchKw_ciMatches k cs pr hm

theorem tryMatchAt_none_of_no_kw (p : Bool) (cs : List Char)
    (h : kwHere cs = false) : tryMatchAt p cs = none := by
  unfold tryMatchAt
  by_cases hp : p = true
  · simp [hp]
  · simp only [eq_false_of_ne_true hp, Bool.false_eq_true, if_false]
    rw [List.findSome?_eq_none_iff]
    intro k hk
    cases hf : matchFull k cs with
    | none => rfl
    | some m =>
        have hci := matchFull_ciMatches k cs m hf
        unfold kwHere at h
        rw [List.any_eq_false] at h
        exact absurd hci (by simp [h k hk])

theorem maskScan_no_kw (fuel : Nat) (p : Bool) (cs : List Char)
    (h : hasKw cs = false) : maskScan fuel p cs = cs := by
  induction fuel generalizing p cs with
  | zero => rfl
  | succ f ih =>
      cases cs with
      | nil => rfl
      | cons c rest =>
          unfold hasKw at h
          rw [Bool.or_eq_false_iff] at h
          unfold maskScan
          rw [tryMatchAt_none_of_no_kw p (c :: rest) h.1]
          rw [ih (isWordChar c) rest h.2]

theorem takeWhile_all_true (p : Char → Bool) (l : List Char)
    (h : ∀ x ∈ l, p x = true) : l.takeWhile p = l := by
  induction l with
  | nil => rfl
  | cons c rest ih =>
      rw [List.takeWhile_cons_of_pos (h c (by simp)),
        ih (fun x hx => h x (by simp [hx]))]

theorem dropWhile_all_true (p : Char → Bool) (l : List Char)
    (h : ∀ x ∈ l, p x = true) : l.dropWhile p = [] := by
  induction l with
  | nil => rfl
  | cons c rest ih =>
      rw [List.dropWhile_cons_of_pos (h c (by simp)),
        ih (fun x hx => h x (by simp [hx]))]

theorem matchKw_password (rest : List Char) :
    matchKw ("password".toList)
        ('P' :: 'a' :: 's' :: 's' :: 'w' :: 'o' :: 'r' :: 'd' :: rest)
      = some (['P', 'a', 's', 's', 'w', 'o', 'r', 'd'], rest) := rfl

theorem takeValue_nonspace (c : Char) (cs : List Char)
    (hc : pyIsSpace c = false) (hnl : ∀ x ∈ c :: cs, notNewline x = true) :
    takeValue (' ' :: c :: cs) = some ([' '], c :: cs, []) := by
  have hsp : pyIsSpace ' ' = true := rfl
  have hcn : ¬ pyIsSpace c = true := by simp [hc]
  unfold takeValue
  rw [List.takeWhile_cons_of_pos hsp, List.takeWhile_cons_of_neg hcn,
    List.dropWhile_cons_of_pos hsp, List.dropWhile_cons_of_neg hcn]
  simp only [takeWhile_all_true notNewline (c :: cs) hnl,
    dropWhile_all_true notNewline (c :: cs) hnl]

theorem matchFull_password (c : Char) (cs : List Char)
    (hc : pyIsSpace c = false) (hnl : ∀ x ∈ c :: cs, notNewline x = true) :
    matchFull ("password".toList)
        ('P' :: 'a' :: 's' :: 's' :: 'w' :: 'o' :: 'r' :: 'd' :: ':' :: ' ' :: c :: cs)
      = some ("Password: ".toList, c :: cs, []) := by
  have ha : ¬ pyIsSpace ':' = true := by decide
  unfold matchFull
  rw [matchKw_password]
  simp only [List.takeWhile_cons_of_neg ha, List.dropWhile_cons_of_neg ha,
    takeValue_nonspace c cs hc hnl]
  rfl

theorem tryMatch_password (c : Char) (cs : List Char)
    (hc : pyIsSpace c = false) (hnl : ∀ x ∈ c :: cs, notNewline x = true) :
    tryMatchAt false
        ('P' :: 'a' :: 's' :: 's' :: 'w' :: 'o' :: 'r' :: 'd' :: ':' :: ' ' :: c :: cs)
      = some ("Password: ".toList, c :: cs, []) := by
  have hk : kwChars = ["password".toList, "pass".toList, "pwd".toList, "secret".toList,
      "token".toList, "key".toList, "auth".toList, "app pass".toList] := rfl
  unfold tryMatchAt
  simp only [Bool.false_eq_true, if_false, hk]
  rw [List.findSome?_cons_of_isSome _ (by rw [matchFull_password c cs hc hnl]; rfl),
    matchFull_password c cs hc hnl]

theorem maskScan_password_step (f : Nat) (c : Char) (cs : List Char)
    (hc : pyIsSpace c = false) (hnl : ∀ x ∈ c :: cs, notNewline x = true) :
    maskScan (f + 1) false
        ('P' :: 'a' :: 's' :: 's' :: 'w' :: 'o' :: 'r' :: 'd' :: ':' :: ' ' :: c :: cs)
      = "Password: ●●●●●●●●".toList := by
  simp only [maskScan, tryMatch_password c cs hc hnl]
  rw [maskScan_nil]
  rfl

/-- C7 counterexample: on "Password:" followed by a newline and "hunter2",
neither line matches the label-separator-value shape (the first has no
value, the second no label), so the claim requires the text unchanged;
but the pattern's \s* after the separator crosses the newline and the
code masks the second line. -/
theorem c7_cross_line_counterexample :
    mask_sensitive_data "Password:\nhunter2" = "Password:\n●●●●●●●●" ∧
      "Password:\n●●●●●●●●" ≠ "Password:\nhunter2" :=
  ⟨rfl, by decide⟩

/-- C7 amended: a line "Password: " followed by any newline-free value that
starts with a non-whitespace character is masked to "Password: " plus the
eight-character marker, preserving the label text, its casing and the
separator; a text containing no recognized credential keyword is left
completely unchanged; label casing and a mid-line label position are
preserved ("My TOKEN = abc123"); and the whitespace after the separator
may cross a newline, in which case the following line is consumed as the
masked value ("Password:\nhunter2"). -/
theorem c7_masking_amended :
    (∀ (v : String) (c : Char) (cs : List Char), v.toList = c :: cs →
        pyIsSpace c = false → (∀ x ∈ c :: cs, notNewline x = true) →
        mask_sensitive_data ("Password: " ++ v) = "Password: ●●●●●●●●") ∧
      (∀ s : String, hasKw s.toList = false → mask_sensitive_data s = s) ∧
      mask_sensitive_data "My TOKEN = abc123" = "My TOKEN = ●●●●●●●●" ∧
      mask_sensitive_data "Password:\nhunter2" = "Password:\n●●●●●●●●" := by
  refine ⟨fun v c cs hv hc hnl => ?_, fun s hs => ?_, rfl, rfl⟩
  · have hinput : ("Password: " ++ v).toList
        = 'P' :: 'a' :: 's' :: 's' :: 'w' :: 'o' :: 'r' :: 'd' :: ':' :: ' ' :: c :: cs := by
      show ("Password: " ++ v).data = _
      rw [String.data_append]
      show "Password: ".data ++ v.toList = _
      rw [hv]
      rfl
    unfold mask_sensitive_data
    rw [hinput, maskScan_password_step _ c cs hc hnl]
    rfl
  · show String.mk (maskScan (s.toList.length + 1) false s.toList) = s
    rw [maskScan_no_kw _ _ _ hs]
    rfl

theorem c7_masking_amended_witness :
    (("hunter2" : String).toList = 'h' :: 'u' :: 'n' :: 't' :: 'e' :: 'r' :: '2' :: [] ∧
        pyIsSpace 'h' = false ∧
        (∀ x ∈ ('h' :: 'u' :: 'n' :: 't' :: 'e' :: 'r' :: '2' :: []), notNewline x = true) ∧
        mask_sensitive_data ("Password: " ++ "hunter2") = "Password: ●●●●●●●●") ∧
      (hasKw "hello world".toList = false ∧
        mask_sensitive_data "hello world" = "hello world") :=
  ⟨⟨rfl, rfl, by decide,
      c7_masking_amended.1 "hunter2" 'h' ('u' :: 'n' :: 't' :: 'e' :: 'r' :: '2' :: [])
        rfl rfl (by decide)⟩,
    ⟨rfl, c7_masking_amended.2.1 "hello world" rfl⟩⟩
